import Mathlib

/-!
# Verification of the Sazmir-Agent worker core (`src/core/agent/worker.py`)

Shallow embedding of the `WorkerAgent` admission-control and task-execution
engine.  Python dictionaries keyed by resource-kind strings are modelled as
association lists (`List (String × ℚ)`); numeric resource quantities are
modelled as rationals; dictionary access that can raise `KeyError` is modelled
in the `Except String` monad.  The asyncio interleaving semantics is modelled
as a small-step scheduler over explicit events further below.
-/

namespace Sazmir

abbrev TaskID := String

/-- `ResourceProfile = Dict[str, float]` from `worker.py`, e.g.
`{"cpu": 1.2, "mem_gb": 4}`, as an association list over rationals. -/
abbrev ResourceProfile := List (String × ℚ)

/-- First-occurrence lookup, the semantics of Python dict access on the
profiles built in this file (keys are unique in all source-built dicts). -/
def rpLookup (d : ResourceProfile) (k : String) : Option ℚ :=
  match d with
  | [] => none
  | (k', v) :: rest => if k' = k then some v else rpLookup rest k

/-- Python `d[k]`: the value, or a `KeyError` escaping the expression. -/
def rpGet (d : ResourceProfile) (k : String) : Except String ℚ :=
  match rpLookup d k with
  | some v => Except.ok v
  | none => Except.error ("KeyError: " ++ k)

/-- The two hard-coded keys of `WorkerAgent._current_load`, which is
initialised in `__init__` as `{"cpu": 0.0, "mem_gb": 0.0}` and only ever
mutated at those two keys. -/
structure Load where
  cpu : ℚ
  mem_gb : ℚ
  deriving DecidableEq, Repr

/-- `WorkerConfig` (`worker.py` lines 21-31): `max_concurrent_tasks`
(default 5, `gt=0`), `task_timeout` (default 300 s), `resource_limits`
(default `{"cpu": 2.0, "mem_gb": 8}`). -/
structure WorkerConfig where
  max_concurrent_tasks : ℕ
  task_timeout : ℕ
  resource_limits : ResourceProfile
  deriving DecidableEq, Repr

/-- The default `WorkerConfig()` built by `WorkerAgent.__init__`. -/
def defaultWorkerConfig : WorkerConfig :=
  { max_concurrent_tasks := 5
    task_timeout := 300
    resource_limits := [("cpu", 2), ("mem_gb", 8)] }

/-- `TaskRequest` (`worker.py` lines 33-39), restricted to the fields the
worker core reads; the opaque `payload` is irrelevant to the claims and the
body's behaviour on it is abstracted as a `BodyOutcome` below. -/
structure TaskRequest where
  task_id : TaskID
  priority : ℤ := 1
  required_resources : ResourceProfile := [("cpu", 1/2), ("mem_gb", 1)]
  deriving DecidableEq, Repr

/-- A metric value: the task body returns `Dict[str, float]`, while
`_handle_task_failure` stores the failure reason string under `"error"`. -/
inductive MetricValue where
  | num (q : ℚ)
  | str (s : String)
  deriving DecidableEq, Repr

/-- `TaskResult` (`worker.py` lines 41-46). -/
structure TaskResult where
  task_id : TaskID
  success : Bool
  metrics : List (String × MetricValue)
  artifacts : List String := []
  deriving DecidableEq, Repr

/-- `WorkerAgent._check_resources` (`worker.py` lines 130-138):

```
return (
    (self._current_load["cpu"] + required["cpu"])
    <= self.worker_config.resource_limits["cpu"]
) and (
    (self._current_load["mem_gb"] + required["mem_gb"])
    <= self.worker_config.resource_limits["mem_gb"]
)
```

Python evaluates the cpu conjunct first (`load["cpu"]`, then
`required["cpu"]`, then `limits["cpu"]`); `and` short-circuits, so the
mem_gb conjunct is only evaluated when the cpu conjunct is `True`.  A
missing dictionary key raises `KeyError` at exactly that point. -/
def check_resources (limits : ResourceProfile) (load : Load)
    (required : ResourceProfile) : Except String Bool :=
  match rpGet required "cpu" with
  | Except.error e => Except.error e
  | Except.ok rc =>
    match rpGet limits "cpu" with
    | Except.error e => Except.error e
    | Except.ok limc =>
      if load.cpu + rc ≤ limc then
        match rpGet required "mem_gb" with
        | Except.error e => Except.error e
        | Except.ok rm =>
          match rpGet limits "mem_gb" with
          | Except.error e => Except.error e
          | Except.ok limm => Except.ok (decide (load.mem_gb + rm ≤ limm))
      else
        Except.ok false

/-- The resolution of one run of the task body inside
`async with asyncio.timeout(...)`: normal completion with its metrics,
deadline expiry (`asyncio.TimeoutError`, the body having been cancelled by
the expiring timeout), any other exception with its `str(e)` description, or
external cancellation (`asyncio.CancelledError`, which is *not* a subclass of
`Exception` and so is caught by neither `except` clause). -/
inductive BodyOutcome where
  | success (metrics : List (String × ℚ))
  | timeout
  | failure (msg : String)
  | cancelled
  deriving DecidableEq, Repr

/-- The `TaskResult` built by `WorkerAgent._handle_task_failure`
(`worker.py` lines 148-153):
`TaskResult(task_id=task_id, success=False, metrics={"error": reason})`. -/
def handle_task_failure (task_id : TaskID) (reason : String) : TaskResult :=
  { task_id := task_id
    success := false
    metrics := [("error", MetricValue.str reason)]
    artifacts := [] }

/-- The `TaskResult`s handed to `_report_to_orchestrator` by one run of
`_execute_task`, per outcome: the success result (`worker.py` lines 104-111),
the timeout-failure result via `_handle_task_failure(task_id, "timeout")`
(line 115), the generic-failure result via `_handle_task_failure(task_id,
str(e))` (line 117), and nothing on cancellation (CancelledError is caught by
neither `except` clause). -/
def reportsFor (task_id : TaskID) (outcome : BodyOutcome) : List TaskResult :=
  match outcome with
  | BodyOutcome.success ms =>
      [{ task_id := task_id
         success := true
         metrics := ms.map (fun p => (p.1, MetricValue.num p.2))
         artifacts := [] }]
  | BodyOutcome.timeout => [handle_task_failure task_id "timeout"]
  | BodyOutcome.failure msg => [handle_task_failure task_id msg]
  | BodyOutcome.cancelled => []

/-- Result of one complete run of `_execute_task`: the results reported, the
final `_current_load`, and the final `_task_registry` key set. -/
structure ExecEffect where
  reports : List TaskResult
  load : Load
  registry : List TaskID
  deriving DecidableEq, Repr

/-- `WorkerAgent._execute_task` (`worker.py` lines 95-122) as a function of
the body outcome, starting from `_current_load = load` and registry keys
`registry`:

1. `try`: `_current_load["cpu"] += task.required_resources["cpu"]` and
   likewise for `"mem_gb"` (synchronous, before any await);
2. the body runs under `asyncio.timeout` and resolves as `outcome`; the
   matching report (if any) is made;
3. `finally`: both loads are decremented by the same dictionary accesses and
   `self._task_registry.pop(task.task_id, None)` removes the entry.

The `finally` block runs on every path out of the `try`, including
cancellation.  A `KeyError` from the increments (a profile missing a key)
is surfaced as `Except.error`; it cannot occur for admitted tasks, whose
profiles passed `check_resources`. -/
def execute_task (task : TaskRequest) (outcome : BodyOutcome)
    (load : Load) (registry : List TaskID) : Except String ExecEffect :=
  match rpGet task.required_resources "cpu" with
  | Except.error e => Except.error e
  | Except.ok rc =>
    match rpGet task.required_resources "mem_gb" with
    | Except.error e => Except.error e
    | Except.ok rm =>
      Except.ok
        { reports := reportsFor task.task_id outcome
          load := { cpu := load.cpu + rc - rc, mem_gb := load.mem_gb + rm - rm }
          registry := registry.erase task.task_id }

/-- The admission response dictionary returned by `_handle_task_request`:
`{"error": "insufficient_resources"}` or `{"task_id": ..., "status": "queued"}`;
an uncaught `KeyError` from `_check_resources` escapes the handler instead. -/
inductive AdmissionResponse where
  | insufficient_resources
  | queued (task_id : TaskID)
  | crashed (msg : String)
  deriving DecidableEq, Repr

/-- Net effect of one call to `_handle_task_request` in the sequential view:
the response, the registry key set afterwards, the load afterwards, and
whether an `_execute_task` coroutine was spawned via `asyncio.create_task`. -/
structure HandlerEffect where
  response : AdmissionResponse
  load : Load
  registry : List TaskID
  spawned : Bool
  deriving DecidableEq, Repr

/-- `WorkerAgent._handle_task_request` (`worker.py` lines 82-93):

```
if not self._check_resources(task.required_resources):
    return {"error": "insufficient_resources"}
async with self._resource_semaphore:
    task_id = task.task_id
    self._task_registry[task_id] = asyncio.create_task(
        self._execute_task(task), name=f"Task-{task_id}")
    return {"task_id": task_id, "status": "queued"}
```

The handler itself never touches `_current_load`; the load mutation lives in
the spawned `_execute_task`.  On rejection nothing at all is mutated. -/
def handle_task_request (cfg : WorkerConfig) (load : Load)
    (registry : List TaskID) (task : TaskRequest) : HandlerEffect :=
  match check_resources cfg.resource_limits load task.required_resources with
  | Except.error m =>
      { response := AdmissionResponse.crashed m
        load := load, registry := registry, spawned := false }
  | Except.ok false =>
      { response := AdmissionResponse.insufficient_resources
        load := load, registry := registry, spawned := false }
  | Except.ok true =>
      { response := AdmissionResponse.queued task.task_id
        load := load
        registry := registry ++ [task.task_id]
        spawned := true }

/-! ## Functional claims about the executor and the admission check -/

/-- Helper: `_execute_task` on a task whose profile has both keys (as every
admitted task does) runs to completion with the indicated effect. -/
theorem execute_task_eq_ok
    (task : TaskRequest) (load : Load) (registry : List TaskID) (rc rm : ℚ)
    (hc : rpGet task.required_resources "cpu" = Except.ok rc)
    (hm : rpGet task.required_resources "mem_gb" = Except.ok rm)
    (outcome : BodyOutcome) :
    execute_task task outcome load registry = Except.ok
      { reports := reportsFor task.task_id outcome
        load := { cpu := load.cpu + rc - rc, mem_gb := load.mem_gb + rm - rm }
        registry := registry.erase task.task_id } := by
  unfold execute_task
  rw [hc, hm]

/-- **C3.** For every task whose body exceeds the per-task timeout, a
`TaskResult` with `success = false` and metric `"error" = "timeout"` is
constructed and handed to the Reporter; likewise every other failure raised
by the task body yields `success = false` and the failure description under
`"error"`.  (The profile-key hypotheses hold for every admitted task: a
profile passing `check_resources` contains both keys.) -/
theorem execute_task_reports_timeout_and_failure
    (task : TaskRequest) (load : Load) (registry : List TaskID) (rc rm : ℚ)
    (hc : rpGet task.required_resources "cpu" = Except.ok rc)
    (hm : rpGet task.required_resources "mem_gb" = Except.ok rm) :
    (∃ eff, execute_task task BodyOutcome.timeout load registry = Except.ok eff ∧
        eff.reports = [{ task_id := task.task_id, success := false,
                         metrics := [("error", MetricValue.str "timeout")],
                         artifacts := [] }]) ∧
    (∀ msg, ∃ eff,
        execute_task task (BodyOutcome.failure msg) load registry = Except.ok eff ∧
        eff.reports = [{ task_id := task.task_id, success := false,
                         metrics := [("error", MetricValue.str msg)],
                         artifacts := [] }]) := by
  constructor
  · exact ⟨_, execute_task_eq_ok task load registry rc rm hc hm BodyOutcome.timeout,
      by simp [reportsFor, handle_task_failure]⟩
  · intro msg
    exact ⟨_, execute_task_eq_ok task load registry rc rm hc hm (BodyOutcome.failure msg),
      by simp [reportsFor, handle_task_failure]⟩

/-- Witness for `execute_task_reports_timeout_and_failure` at the default
resource profile. -/
theorem execute_task_reports_timeout_and_failure_witness :
    ∃ eff, execute_task { task_id := "t1" } BodyOutcome.timeout
        { cpu := 1/2, mem_gb := 1 } ["t1"] = Except.ok eff ∧
      eff.reports = [{ task_id := "t1", success := false,
                       metrics := [("error", MetricValue.str "timeout")],
                       artifacts := [] }] :=
  (execute_task_reports_timeout_and_failure { task_id := "t1" }
    { cpu := 1/2, mem_gb := 1 } ["t1"] (1/2) 1 rfl rfl).1

/-- **C4.** For every admitted task, each terminal outcome of the body —
success, timeout, or body failure — produces exactly one `TaskResult`
(no duplicates, none dropped), and `eff.reports` is by construction the list
of results handed to `_report_to_orchestrator`. -/
theorem execute_task_exactly_one_report
    (task : TaskRequest) (load : Load) (registry : List TaskID) (rc rm : ℚ)
    (hc : rpGet task.required_resources "cpu" = Except.ok rc)
    (hm : rpGet task.required_resources "mem_gb" = Except.ok rm)
    (outcome : BodyOutcome) (hnc : outcome ≠ BodyOutcome.cancelled) :
    ∃ eff, execute_task task outcome load registry = Except.ok eff ∧
      eff.reports.length = 1 := by
  refine ⟨_, execute_task_eq_ok task load registry rc rm hc hm outcome, ?_⟩
  cases outcome with
  | success ms => simp [reportsFor]
  | timeout => simp [reportsFor]
  | failure msg => simp [reportsFor]
  | cancelled => exact absurd rfl hnc

/-- Witness for `execute_task_exactly_one_report` on a successful body. -/
theorem execute_task_exactly_one_report_witness :
    ∃ eff, execute_task { task_id := "t1" }
        (BodyOutcome.success [("duration", 1)])
        { cpu := 1/2, mem_gb := 1 } ["t1"] = Except.ok eff ∧
      eff.reports.length = 1 :=
  execute_task_exactly_one_report { task_id := "t1" }
    { cpu := 1/2, mem_gb := 1 } ["t1"] (1/2) 1 rfl rfl
    (BodyOutcome.success [("duration", 1)]) (by simp)

/-- **C5.** For every admitted task and *every* terminal outcome — success,
timeout, failure, or cancellation — the `finally` clause restores
`_current_load` to exactly its value before the executor's increment and
removes the task's registry entry. -/
theorem execute_task_cleanup
    (task : TaskRequest) (load : Load) (registry : List TaskID) (rc rm : ℚ)
    (hc : rpGet task.required_resources "cpu" = Except.ok rc)
    (hm : rpGet task.required_resources "mem_gb" = Except.ok rm)
    (outcome : BodyOutcome) :
    ∃ eff, execute_task task outcome load registry = Except.ok eff ∧
      eff.load = load ∧ eff.registry = registry.erase task.task_id := by
  refine ⟨_, execute_task_eq_ok task load registry rc rm hc hm outcome, ?_, rfl⟩
  cases load
  simp

/-- Witness for `execute_task_cleanup` on the cancellation outcome. -/
theorem execute_task_cleanup_witness :
    ∃ eff, execute_task { task_id := "t1" } BodyOutcome.cancelled
        { cpu := 1/2, mem_gb := 1 } ["t1", "t2"] = Except.ok eff ∧
      eff.load = { cpu := 1/2, mem_gb := 1 } ∧
      eff.registry = (["t1", "t2"] : List TaskID).erase "t1" :=
  execute_task_cleanup { task_id := "t1" } { cpu := 1/2, mem_gb := 1 }
    ["t1", "t2"] (1/2) 1 rfl rfl BodyOutcome.cancelled

/-- **C10.** For every in-flight task that is externally cancelled,
`asyncio.CancelledError` is caught by neither `except` clause — no
`TaskResult` is constructed or reported — yet the `finally` clause still
decrements the load and removes the registry entry. -/
theorem execute_task_cancelled_no_report
    (task : TaskRequest) (load : Load) (registry : List TaskID) (rc rm : ℚ)
    (hc : rpGet task.required_resources "cpu" = Except.ok rc)
    (hm : rpGet task.required_resources "mem_gb" = Except.ok rm) :
    ∃ eff, execute_task task BodyOutcome.cancelled load registry = Except.ok eff ∧
      eff.reports = [] ∧ eff.load = load ∧
      eff.registry = registry.erase task.task_id := by
  refine ⟨_, execute_task_eq_ok task load registry rc rm hc hm BodyOutcome.cancelled,
    by simp [reportsFor], ?_, rfl⟩
  cases load
  simp

/-- Witness for `execute_task_cancelled_no_report`. -/
theorem execute_task_cancelled_no_report_witness :
    ∃ eff, execute_task { task_id := "t9" } BodyOutcome.cancelled
        { cpu := 3/2, mem_gb := 5 } ["t9"] = Except.ok eff ∧
      eff.reports = [] ∧ eff.load = { cpu := 3/2, mem_gb := 5 } ∧
      eff.registry = (["t9"] : List TaskID).erase "t9" :=
  execute_task_cancelled_no_report { task_id := "t9" }
    { cpu := 3/2, mem_gb := 5 } ["t9"] (1/2) 1 rfl rfl

/-- **C7.** A request whose required resources fail the admission check gets
the structured `insufficient_resources` response; no execution is spawned and
load and registry are unchanged. -/
theorem handle_task_request_insufficient
    (cfg : WorkerConfig) (load : Load) (registry : List TaskID)
    (task : TaskRequest)
    (hrej : check_resources cfg.resource_limits load task.required_resources =
      Except.ok false) :
    handle_task_request cfg load registry task =
      { response := AdmissionResponse.insufficient_resources
        load := load, registry := registry, spawned := false } := by
  simp [handle_task_request, hrej]

/-- Witness for `handle_task_request_insufficient`: under the default limits
`{"cpu": 2.0, "mem_gb": 8}`, a request for `{"cpu": 1.2, "mem_gb": 4}` on a
worker already loaded at `{"cpu": 1.2, "mem_gb": 4}` is rejected with no
mutation (the spec's two-task scenario). -/
theorem handle_task_request_insufficient_witness :
    handle_task_request defaultWorkerConfig { cpu := 6/5, mem_gb := 4 } ["t1"]
      { task_id := "t2", required_resources := [("cpu", 6/5), ("mem_gb", 4)] } =
      { response := AdmissionResponse.insufficient_resources
        load := { cpu := 6/5, mem_gb := 4 }, registry := ["t1"]
        spawned := false } :=
  handle_task_request_insufficient defaultWorkerConfig
    { cpu := 6/5, mem_gb := 4 } ["t1"]
    { task_id := "t2", required_resources := [("cpu", 6/5), ("mem_gb", 4)] }
    (by norm_num [check_resources, defaultWorkerConfig, rpGet, rpLookup])

/-! ## C8 and C9: what the admission check actually evaluates -/

/-- The load the worker tracks for an arbitrary resource-kind name:
`_current_load` only ever has the keys `"cpu"` and `"mem_gb"`, so every other
kind has zero committed load. -/
def loadOf (load : Load) (k : String) : ℚ :=
  if k = "cpu" then load.cpu else if k = "mem_gb" then load.mem_gb else 0

/-- Modelled from the spec (§4.1 `checkAndAdmit`), for comparison with the
source's `check_resources`: "For every resource kind present in `required`,
the sum of current load for that kind plus the requested amount must not
exceed the configured limit for that kind; if a kind is absent from the
limits map, treat it as unconstrained (no denial)". -/
def checkAndAdmit_spec (limits : ResourceProfile) (load : Load)
    (required : ResourceProfile) : Bool :=
  required.all fun kv =>
    match rpLookup limits kv.1 with
    | none => true
    | some lim => decide (loadOf load kv.1 + kv.2 ≤ lim)

/-- Helper: first-occurrence lookup ignores appended entries whose keys all
differ from the key looked up. -/
theorem rpLookup_append_of_ne (d extras : ResourceProfile) (k : String)
    (h : ∀ p ∈ extras, p.1 ≠ k) :
    rpLookup (d ++ extras) k = rpLookup d k := by
  induction d with
  | nil =>
      simp only [List.nil_append, rpLookup]
      induction extras with
      | nil => rfl
      | cons p rest ih =>
          simp only [rpLookup, if_neg (h p (List.mem_cons_self p rest))]
          exact ih fun q hq => h q (List.mem_cons_of_mem p hq)
  | cons p rest ih =>
      simp only [List.cons_append, rpLookup]
      by_cases hk : p.1 = k
      · simp [hk]
      · simp only [if_neg hk]
        exact ih

/-- **C8, counterexample.** The claim says the admission check evaluates
*every* resource kind present in the profile against the configured limits.
It does not: with limits `{"cpu": 2, "mem_gb": 8, "gpu": 1}` and requirement
`{"cpu": 1/2, "mem_gb": 1, "gpu": 999}`, the per-kind evaluation the claim
describes denies (999 > 1 for `"gpu"`), but `_check_resources` — which
hard-codes the kinds `"cpu"` and `"mem_gb"` — admits. -/
theorem check_resources_ignores_other_kinds :
    check_resources [("cpu", 2), ("mem_gb", 8), ("gpu", 1)]
        { cpu := 0, mem_gb := 0 }
        [("cpu", 1/2), ("mem_gb", 1), ("gpu", 999)] = Except.ok true ∧
    checkAndAdmit_spec [("cpu", 2), ("mem_gb", 8), ("gpu", 1)]
        { cpu := 0, mem_gb := 0 }
        [("cpu", 1/2), ("mem_gb", 1), ("gpu", 999)] = false := by
  constructor
  · unfold check_resources
    rw [show rpGet [("cpu", (1:ℚ)/2), ("mem_gb", 1), ("gpu", 999)] "cpu" =
        Except.ok (1/2) from rfl]
    rw [show rpGet [("cpu", (2:ℚ)), ("mem_gb", 8), ("gpu", 1)] "cpu" =
        Except.ok 2 from rfl]
    rw [show rpGet [("cpu", (1:ℚ)/2), ("mem_gb", 1), ("gpu", 999)] "mem_gb" =
        Except.ok 1 from rfl]
    rw [show rpGet [("cpu", (2:ℚ)), ("mem_gb", 8), ("gpu", 1)] "mem_gb" =
        Except.ok 8 from rfl]
    norm_num
  · simp only [checkAndAdmit_spec, List.all_cons, List.all_nil]
    rw [show rpLookup [("cpu", (2:ℚ)), ("mem_gb", 8), ("gpu", 1)] "gpu" =
        some 1 from rfl]
    simp [loadOf]

/-- **C8, amended.** The admission check evaluates exactly the kinds `"cpu"`
and `"mem_gb"`; every other kind present in the required profile is ignored —
it never causes denial and never crashes.  Formally, appending entries for
any other kinds to a required profile leaves the check's outcome unchanged. -/
theorem check_resources_other_kinds_no_effect
    (limits : ResourceProfile) (load : Load) (required extras : ResourceProfile)
    (h : ∀ p ∈ extras, p.1 ≠ "cpu" ∧ p.1 ≠ "mem_gb") :
    check_resources limits load (required ++ extras) =
      check_resources limits load required := by
  unfold check_resources rpGet
  rw [rpLookup_append_of_ne required extras "cpu" fun p hp => (h p hp).1]
  rw [rpLookup_append_of_ne required extras "mem_gb" fun p hp => (h p hp).2]

/-- Witness for `check_resources_other_kinds_no_effect`: a `"gpu"` demand of
999 changes nothing about admission. -/
theorem check_resources_other_kinds_no_effect_witness :
    check_resources [("cpu", 2), ("mem_gb", 8)] { cpu := 0, mem_gb := 0 }
        ([("cpu", 1/2), ("mem_gb", 1)] ++ [("gpu", 999)]) =
      check_resources [("cpu", 2), ("mem_gb", 8)] { cpu := 0, mem_gb := 0 }
        [("cpu", 1/2), ("mem_gb", 1)] :=
  check_resources_other_kinds_no_effect [("cpu", 2), ("mem_gb", 8)]
    { cpu := 0, mem_gb := 0 } [("cpu", 1/2), ("mem_gb", 1)] [("gpu", 999)]
    (by simp)

/-- **C9, counterexample.** The claim says every required profile lacking a
`"cpu"` or `"mem_gb"` key makes the admission check raise `KeyError` instead
of returning an admit/reject answer.  But Python's `and` short-circuits: the
profile `{"cpu": 99}` lacks `"mem_gb"`, yet under the default limits the cpu
conjunct is already `False`, so `_check_resources` returns `False` and the
handler returns the ordinary `insufficient_resources` rejection — no crash. -/
theorem check_resources_missing_mem_gb_no_crash :
    check_resources defaultWorkerConfig.resource_limits
        { cpu := 0, mem_gb := 0 } [("cpu", 99)] = Except.ok false ∧
    handle_task_request defaultWorkerConfig { cpu := 0, mem_gb := 0 } []
        { task_id := "t1", required_resources := [("cpu", 99)] } =
      { response := AdmissionResponse.insufficient_resources
        load := { cpu := 0, mem_gb := 0 }, registry := [], spawned := false } := by
  have hchk : check_resources defaultWorkerConfig.resource_limits
      { cpu := 0, mem_gb := 0 } [("cpu", 99)] = Except.ok false := by
    unfold check_resources defaultWorkerConfig
    rw [show rpGet [("cpu", (99:ℚ))] "cpu" = Except.ok 99 from rfl]
    rw [show rpGet [("cpu", (2:ℚ)), ("mem_gb", 8)] "cpu" = Except.ok 2 from rfl]
    norm_num
  exact ⟨hchk, by unfold handle_task_request; rw [hchk]⟩

/-- **C9, amended.** A required profile lacking `"cpu"` always raises
`KeyError: cpu`.  A profile lacking only `"mem_gb"` raises `KeyError: mem_gb`
exactly when the cpu conjunct passes; when the cpu conjunct already fails,
short-circuit evaluation returns an ordinary rejection instead. -/
theorem check_resources_missing_key
    (limits : ResourceProfile) (load : Load) (required : ResourceProfile)
    (rc limc : ℚ) :
    (rpLookup required "cpu" = none →
      check_resources limits load required =
        Except.error ("KeyError: " ++ "cpu")) ∧
    (rpLookup required "cpu" = some rc → rpLookup limits "cpu" = some limc →
      rpLookup required "mem_gb" = none →
      check_resources limits load required =
        if load.cpu + rc ≤ limc then Except.error ("KeyError: " ++ "mem_gb")
        else Except.ok false) := by
  constructor
  · intro h
    unfold check_resources rpGet
    rw [h]
  · intro h1 h2 h3
    unfold check_resources rpGet
    rw [h1, h2, h3]

/-- Witness for `check_resources_missing_key`: the profile `{"mem_gb": 1}`
crashes with `KeyError: cpu`; the profile `{"cpu": 99}` is rejected without
a crash under the default limits. -/
theorem check_resources_missing_key_witness :
    check_resources defaultWorkerConfig.resource_limits
        { cpu := 0, mem_gb := 0 } [("mem_gb", 1)] =
      Except.error ("KeyError: " ++ "cpu") ∧
    check_resources defaultWorkerConfig.resource_limits
        { cpu := 0, mem_gb := 0 } [("cpu", 99)] = Except.ok false := by
  constructor
  · exact (check_resources_missing_key defaultWorkerConfig.resource_limits
      { cpu := 0, mem_gb := 0 } [("mem_gb", 1)] 0 0).1 rfl
  · have h := (check_resources_missing_key defaultWorkerConfig.resource_limits
      { cpu := 0, mem_gb := 0 } [("cpu", 99)] 99 2).2 rfl rfl rfl
    rw [h]
    norm_num

/-! ## Interleaving model of the asyncio event loop

`_handle_task_request` and the `_execute_task` coroutines it spawns run
cooperatively on one event loop.  The atomic (suspension-free) regions of the
source are:

* `check`: the synchronous `_check_resources` call and the branch on it
  (`worker.py` lines 84-85); the coroutine may then suspend at
  `async with self._resource_semaphore` (line 87);
* `spawn`: the whole `async with` block (lines 87-93) — acquiring an
  available semaphore, the registry insert, `asyncio.create_task`, the
  return, and the release at block exit contain no `await`, so they form one
  atomic region with no *net* change to the semaphore;
* `startExec`: the first slice of the spawned `_execute_task`, from its start
  to the first suspension inside `asyncio.timeout` — in particular both
  `_current_load` increments (lines 98-99);
* `finishExec`: the body's resolution, the matching report, and the
  `finally` clause (lines 102-122).

Between any two of these regions the event loop may run any other coroutine:
in particular the load increment of `startExec` is *not* atomic with its
request's `check`, and the semaphore is *not* held during `startExec` or
`finishExec`. -/

/-- The progress of one request through handler and executor. -/
inductive Phase where
  | hCheck
  | hAcquire
  | rejected
  | crashed (msg : String)
  | eIncr
  | eBody
  | done
  deriving DecidableEq, Repr

/-- One request together with its current phase. -/
structure ReqState where
  task : TaskRequest
  phase : Phase
  deriving DecidableEq, Repr

/-- The worker's shared state plus the coroutines in flight. -/
structure Sys where
  cfg : WorkerConfig
  load : Load
  registry : List TaskID
  semAvail : ℕ
  reqs : List ReqState
  reports : List TaskResult
  responses : List AdmissionResponse
  deriving DecidableEq, Repr

/-- First request with the given task identifier. -/
def findReq (reqs : List ReqState) (t : TaskID) : Option ReqState :=
  match reqs with
  | [] => none
  | r :: rest => if r.task.task_id = t then some r else findReq rest t

/-- Set the phase of the first request with the given task identifier. -/
def setPhase (reqs : List ReqState) (t : TaskID) (p : Phase) : List ReqState :=
  match reqs with
  | [] => []
  | r :: rest =>
      if r.task.task_id = t then { r with phase := p } :: rest
      else r :: setPhase rest t p

/-- A schedulable atomic region, named by the request it belongs to. -/
inductive Ev where
  | check (t : TaskID)
  | spawn (t : TaskID)
  | startExec (t : TaskID)
  | finishExec (t : TaskID) (outcome : BodyOutcome)
  deriving DecidableEq, Repr

/-- One atomic region of the event loop.  An event whose request is not in
the matching phase is not runnable and leaves the state unchanged. -/
def step (s : Sys) (e : Ev) : Sys :=
  match e with
  | Ev.check t =>
      match findReq s.reqs t with
      | none => s
      | some r =>
          if r.phase = Phase.hCheck then
            match check_resources s.cfg.resource_limits s.load
                r.task.required_resources with
            | Except.error m =>
                { s with reqs := setPhase s.reqs t (Phase.crashed m) }
            | Except.ok false =>
                { s with
                  reqs := setPhase s.reqs t Phase.rejected
                  responses := s.responses ++
                    [AdmissionResponse.insufficient_resources] }
            | Except.ok true =>
                { s with reqs := setPhase s.reqs t Phase.hAcquire }
          else s
  | Ev.spawn t =>
      match findReq s.reqs t with
      | none => s
      | some r =>
          if r.phase = Phase.hAcquire then
            if 0 < s.semAvail then
              -- acquire, insert + create_task + return, release on block exit
              { s with
                semAvail := s.semAvail - 1 + 1
                registry := s.registry ++ [t]
                reqs := setPhase s.reqs t Phase.eIncr
                responses := s.responses ++ [AdmissionResponse.queued t] }
            else s
          else s
  | Ev.startExec t =>
      match findReq s.reqs t with
      | none => s
      | some r =>
          if r.phase = Phase.eIncr then
            match rpGet r.task.required_resources "cpu",
                rpGet r.task.required_resources "mem_gb" with
            | Except.ok rc, Except.ok rm =>
                { s with
                  load := { cpu := s.load.cpu + rc, mem_gb := s.load.mem_gb + rm }
                  reqs := setPhase s.reqs t Phase.eBody }
            | Except.error m, _ => { s with reqs := setPhase s.reqs t (Phase.crashed m) }
            | _, Except.error m => { s with reqs := setPhase s.reqs t (Phase.crashed m) }
          else s
  | Ev.finishExec t outcome =>
      match findReq s.reqs t with
      | none => s
      | some r =>
          if r.phase = Phase.eBody then
            match rpGet r.task.required_resources "cpu",
                rpGet r.task.required_resources "mem_gb" with
            | Except.ok rc, Except.ok rm =>
                { s with
                  load := { cpu := s.load.cpu - rc, mem_gb := s.load.mem_gb - rm }
                  registry := s.registry.erase t
                  reqs := setPhase s.reqs t Phase.done
                  reports := s.reports ++ reportsFor t outcome }
            | Except.error m, _ => { s with reqs := setPhase s.reqs t (Phase.crashed m) }
            | _, Except.error m => { s with reqs := setPhase s.reqs t (Phase.crashed m) }
          else s

/-- Run a schedule of atomic regions. -/
def run (s : Sys) (sched : List Ev) : Sys :=
  sched.foldl step s

/-- Number of task executions currently running (in-flight bodies). -/
def inFlight (s : Sys) : ℕ :=
  (s.reqs.filter fun r => r.phase = Phase.eBody).length

/-- A worker fresh out of `__init__`, with two pending requests each
demanding `{"cpu": 1.2, "mem_gb": 4}` (the spec's own scenario), under the
default limits `{"cpu": 2.0, "mem_gb": 8}`. -/
def initC1 : Sys :=
  { cfg := defaultWorkerConfig
    load := { cpu := 0, mem_gb := 0 }
    registry := []
    semAvail := 5
    reqs :=
      [ { task := { task_id := "a"
                    required_resources := [("cpu", 6/5), ("mem_gb", 4)] }
          phase := Phase.hCheck }
      , { task := { task_id := "b"
                    required_resources := [("cpu", 6/5), ("mem_gb", 4)] }
          phase := Phase.hCheck } ]
    reports := []
    responses := [] }

/-- The racing schedule: both handlers run their resource check (each sees
load 0), both spawn, then both executors run their load increments. -/
def schedC1 : List Ev :=
  [ Ev.check "a", Ev.check "b", Ev.spawn "a", Ev.spawn "b"
  , Ev.startExec "a", Ev.startExec "b" ]

/-- Helper: under the default limits a fresh worker admits
`{"cpu": 1.2, "mem_gb": 4}`. -/
theorem check_ok_c1 :
    check_resources defaultWorkerConfig.resource_limits
      { cpu := 0, mem_gb := 0 } [("cpu", 6/5), ("mem_gb", 4)] =
    Except.ok true := by
  unfold check_resources defaultWorkerConfig
  rw [show rpGet [("cpu", (6:ℚ)/5), ("mem_gb", 4)] "cpu" = Except.ok (6/5) from rfl]
  rw [show rpGet [("cpu", (2:ℚ)), ("mem_gb", 8)] "cpu" = Except.ok 2 from rfl]
  rw [show rpGet [("cpu", (6:ℚ)/5), ("mem_gb", 4)] "mem_gb" = Except.ok 4 from rfl]
  rw [show rpGet [("cpu", (2:ℚ)), ("mem_gb", 8)] "mem_gb" = Except.ok 8 from rfl]
  norm_num

/-- **C1, failing run.** The resource check and the load increment are *not*
atomic: the check runs in `_handle_task_request` while the increment runs in
the separately scheduled `_execute_task` coroutine.  On the schedule
`schedC1` both requests for `{"cpu": 1.2, "mem_gb": 4}` pass the check
against the still-zero load, both are admitted (`status: "queued"`), and the
committed cpu load reaches 2.4, exceeding the configured limit 2.0 — the
instant the claim says can never be observed. -/
theorem admission_race_exceeds_limit :
    (run initC1 schedC1).responses =
      [AdmissionResponse.queued "a", AdmissionResponse.queued "b"] ∧
    (run initC1 schedC1).load.cpu = 12/5 ∧
    rpLookup defaultWorkerConfig.resource_limits "cpu" = some 2 ∧
    ¬((run initC1 schedC1).load.cpu ≤ 2) := by
  have hrun : run initC1 schedC1 =
      { cfg := defaultWorkerConfig
        load := { cpu := 0 + 6/5 + 6/5, mem_gb := 0 + 4 + 4 }
        registry := ["a", "b"]
        semAvail := 5
        reqs :=
          [ { task := { task_id := "a"
                        required_resources := [("cpu", 6/5), ("mem_gb", 4)] }
              phase := Phase.eBody }
          , { task := { task_id := "b"
                        required_resources := [("cpu", 6/5), ("mem_gb", 4)] }
              phase := Phase.eBody } ]
        reports := []
        responses := [AdmissionResponse.queued "a", AdmissionResponse.queued "b"] } := by
    simp [run, schedC1, initC1, step, findReq, setPhase, check_ok_c1, rpGet, rpLookup]
  refine ⟨by rw [hrun], by rw [hrun]; norm_num, rfl, by rw [hrun]; norm_num⟩

/-- A worker configured with `max_concurrent_tasks = 1` and two cheap
requests. -/
def initC2 : Sys :=
  { cfg := { max_concurrent_tasks := 1
             task_timeout := 300
             resource_limits := [("cpu", 2), ("mem_gb", 8)] }
    load := { cpu := 0, mem_gb := 0 }
    registry := []
    semAvail := 1
    reqs :=
      [ { task := { task_id := "a"
                    required_resources := [("cpu", 1), ("mem_gb", 1)] }
          phase := Phase.hCheck }
      , { task := { task_id := "b"
                    required_resources := [("cpu", 1), ("mem_gb", 1)] }
          phase := Phase.hCheck } ]
    reports := []
    responses := [] }

/-- Both handlers admit, both executors start. -/
def schedC2 : List Ev :=
  [ Ev.check "a", Ev.check "b", Ev.spawn "a", Ev.spawn "b"
  , Ev.startExec "a", Ev.startExec "b" ]

/-- Helper: a fresh worker admits the requirement `{"cpu": 1, "mem_gb": 1}`. -/
theorem check_ok_c2 :
    check_resources [("cpu", 2), ("mem_gb", 8)]
      { cpu := 0, mem_gb := 0 } [("cpu", 1), ("mem_gb", 1)] =
    Except.ok true := by
  unfold check_resources
  rw [show rpGet [("cpu", (1:ℚ)), ("mem_gb", 1)] "cpu" = Except.ok 1 from rfl]
  rw [show rpGet [("cpu", (2:ℚ)), ("mem_gb", 8)] "cpu" = Except.ok 2 from rfl]
  rw [show rpGet [("cpu", (1:ℚ)), ("mem_gb", 1)] "mem_gb" = Except.ok 1 from rfl]
  rw [show rpGet [("cpu", (2:ℚ)), ("mem_gb", 8)] "mem_gb" = Except.ok 8 from rfl]
  norm_num

/-- **C2, failing run.** The semaphore is acquired and released inside the
`async with` block of `_handle_task_request`, around `asyncio.create_task`
only — it is *not* held while `_execute_task` runs.  With
`max_concurrent_tasks = 1`, the schedule `schedC2` leaves two task bodies
executing simultaneously. -/
theorem semaphore_does_not_bound_execution :
    initC2.cfg.max_concurrent_tasks = 1 ∧
    inFlight (run initC2 schedC2) = 2 ∧
    ¬(inFlight (run initC2 schedC2) ≤ initC2.cfg.max_concurrent_tasks) := by
  have hrun : inFlight (run initC2 schedC2) = 2 := by
    simp [run, schedC2, initC2, step, findReq, setPhase, check_ok_c2,
      rpGet, rpLookup, inFlight]
  exact ⟨rfl, hrun, by rw [hrun]; decide⟩

/-! ## C6: shutdown drains all in-flight executions

`WorkerAgent.shutdown` (`worker.py` lines 181-190) cancels every handle in
the registry and gathers them:

```
for task in self._task_registry.values():
    task.cancel()
await asyncio.gather(*self._task_registry.values(), return_exceptions=True)
```

Each cancelled, already-started execution resolves with
`BodyOutcome.cancelled` and runs its `finally` clause; `gather` returns once
every one of them has.  A registered task whose coroutine has *not yet had
its first step* (phase `eIncr`, the window between `asyncio.create_task` and
the event loop first running it) behaves differently: cancelling it throws
`CancelledError` before the body's `try` is ever entered, so neither the
increments nor the `finally` clause run — in particular
`self._task_registry.pop` never executes for it and its registry entry
survives the drain.  The `await super().shutdown()` call on line 183 targets
`BaseAgent` (not part of this repository's sources) and does not touch the
worker's load or registry. -/

/-- Cancelling and awaiting one registered handle: a started body resolves
as cancelled and the executor's terminal region runs; a never-started body
(phase `eIncr`) is killed before entering its `try`, so nothing of
`_execute_task` runs and the state is unchanged — which is exactly how
`step` treats a `finishExec` event for a request not in phase `eBody`. -/
def drainStep (acc : Sys) (t : TaskID) : Sys :=
  step acc (Ev.finishExec t BodyOutcome.cancelled)

/-- `WorkerAgent.shutdown`'s cancel-and-gather over the registry snapshot. -/
def shutdown (s : Sys) : Sys :=
  s.registry.foldl drainStep s

/-- Helper: a found request carries the identifier it was found under. -/
theorem findReq_some_id (reqs : List ReqState) (t : TaskID) (r : ReqState)
    (h : findReq reqs t = some r) : r.task.task_id = t := by
  induction reqs with
  | nil => exact absurd h (by simp [findReq])
  | cons r0 rest ih =>
      by_cases h0 : r0.task.task_id = t
      · have : r0 = r := by
          have := h
          rw [findReq, if_pos h0] at this
          exact Option.some.inj this
        rw [← this]
        exact h0
      · apply ih
        rw [findReq, if_neg h0] at h
        exact h

/-- Helper: `setPhase` at one identifier does not change what is found at a
different identifier. -/
theorem findReq_setPhase_ne (reqs : List ReqState) (t u : TaskID) (p : Phase)
    (h : u ≠ t) : findReq (setPhase reqs t p) u = findReq reqs u := by
  induction reqs with
  | nil => rfl
  | cons r0 rest ih =>
      by_cases h0 : r0.task.task_id = t
      · rw [setPhase, if_pos h0, findReq, findReq]
        have : ¬(r0.task.task_id = u) := by rw [h0]; exact fun hh => h hh.symm
        rw [if_neg this, if_neg this]
      · rw [setPhase, if_neg h0, findReq, findReq]
        by_cases h1 : r0.task.task_id = u
        · rw [if_pos h1, if_pos h1]
        · rw [if_neg h1, if_neg h1]
          exact ih

/-- Helper: `setPhase` at a present identifier updates exactly the found
request. -/
theorem findReq_setPhase_self (reqs : List ReqState) (t : TaskID) (p : Phase)
    (r : ReqState) (h : findReq reqs t = some r) :
    findReq (setPhase reqs t p) t = some { r with phase := p } := by
  induction reqs with
  | nil => exact absurd h (by simp [findReq])
  | cons r0 rest ih =>
      by_cases h0 : r0.task.task_id = t
      · have hr : r0 = r := by
          have := h
          rw [findReq, if_pos h0] at this
          exact Option.some.inj this
        rw [setPhase, if_pos h0, findReq]
        simp only [hr]
        rw [if_pos]
        exact findReq_some_id (r0 :: rest) t r (by rw [findReq, if_pos h0, hr])
      · rw [setPhase, if_neg h0, findReq, if_neg h0]
        apply ih
        rw [findReq, if_neg h0] at h
        exact h

/-- Helper: `setPhase` preserves the identifier sequence. -/
theorem setPhase_ids (reqs : List ReqState) (t : TaskID) (p : Phase) :
    (setPhase reqs t p).map (fun r => r.task.task_id) =
      reqs.map (fun r => r.task.task_id) := by
  induction reqs with
  | nil => rfl
  | cons r0 rest ih =>
      by_cases h0 : r0.task.task_id = t
      · rw [setPhase, if_pos h0]
        simp
      · rw [setPhase, if_neg h0]
        simp [ih]

/-- Helper: with distinct request identifiers, a member of
`setPhase reqs t p` either is the updated entry for `t` or is an untouched
member with a different identifier. -/
theorem mem_setPhase_cases (reqs : List ReqState) (t : TaskID) (p : Phase)
    (hids : (reqs.map fun r => r.task.task_id).Nodup)
    (r' : ReqState) (h : r' ∈ setPhase reqs t p) :
    (r'.task.task_id = t ∧ r'.phase = p) ∨
    (r'.task.task_id ≠ t ∧ r' ∈ reqs) := by
  induction reqs with
  | nil => exact absurd h (by simp [setPhase])
  | cons r0 rest ih =>
      rw [List.map_cons, List.nodup_cons] at hids
      by_cases h0 : r0.task.task_id = t
      · rw [setPhase, if_pos h0] at h
        rcases List.mem_cons.mp h with h1 | h1
        · exact Or.inl ⟨by rw [h1]; exact h0, by rw [h1]⟩
        · refine Or.inr ⟨?_, List.mem_cons_of_mem r0 h1⟩
          intro hEq
          apply hids.1
          have hmem : r'.task.task_id ∈ rest.map (fun r => r.task.task_id) :=
            List.mem_map_of_mem (fun r => r.task.task_id) h1
          rw [hEq, ← h0] at hmem
          exact hmem
      · rw [setPhase, if_neg h0] at h
        rcases List.mem_cons.mp h with h1 | h1
        · exact Or.inr ⟨by rw [h1]; exact h0, by rw [h1]; exact List.mem_cons_self r0 rest⟩
        · rcases ih hids.2 h1 with h2 | h2
          · exact Or.inl h2
          · exact Or.inr ⟨h2.1, List.mem_cons_of_mem r0 h2.2⟩

/-- Helper: cancelling a registered, running request performs the `finally`
cleanup: load decrement, registry removal, phase `done`, and — cancellation
being caught by neither `except` clause — no report. -/
theorem drainStep_eBody (s : Sys) (t : TaskID) (r : ReqState) (rc rm : ℚ)
    (hfind : findReq s.reqs t = some r) (hp : r.phase = Phase.eBody)
    (hc : rpGet r.task.required_resources "cpu" = Except.ok rc)
    (hm : rpGet r.task.required_resources "mem_gb" = Except.ok rm) :
    drainStep s t =
      { s with
        load := { cpu := s.load.cpu - rc, mem_gb := s.load.mem_gb - rm }
        registry := s.registry.erase t
        reqs := setPhase s.reqs t Phase.done
        reports := s.reports } := by
  unfold drainStep
  simp only [step]
  rw [hfind]
  simp only [hp, hc, hm, reportsFor, List.append_nil, if_pos]

/-- Helper: a drain step addressed at one identifier leaves what is found at
any other identifier unchanged. -/
theorem findReq_drainStep_ne (s : Sys) (u t : TaskID) (h : t ≠ u) :
    findReq (drainStep s u).reqs t = findReq s.reqs t := by
  unfold drainStep
  cases hf : findReq s.reqs u with
  | none => simp [step, hf]
  | some r =>
      by_cases hp : r.phase = Phase.eBody
      · cases hc : rpGet r.task.required_resources "cpu" with
        | error m => simp [step, hf, hp, hc, findReq_setPhase_ne s.reqs u t _ h]
        | ok rc =>
            cases hm : rpGet r.task.required_resources "mem_gb" with
            | error m =>
                simp [step, hf, hp, hc, hm, findReq_setPhase_ne s.reqs u t _ h]
            | ok rm =>
                simp [step, hf, hp, hc, hm, findReq_setPhase_ne s.reqs u t _ h]
      · simp [step, hf, hp]

/-- Helper: folding drain steps over identifiers not including `t` leaves
what is found at `t` unchanged. -/
theorem findReq_drain_fold_ne (L : List TaskID) :
    ∀ (s : Sys) (t : TaskID), t ∉ L →
      findReq (L.foldl drainStep s).reqs t = findReq s.reqs t := by
  induction L with
  | nil => intro s t _; rfl
  | cons u rest ih =>
      intro s t ht
      rw [List.foldl_cons]
      rw [ih (drainStep s u) t (fun hmem => ht (List.mem_cons_of_mem u hmem))]
      exact findReq_drainStep_ne s u t (fun hEq => ht (hEq ▸ List.mem_cons_self u rest))

/-- Helper: the drain loop, folded over a snapshot of the registry, empties
the registry, leaves every snapshot entry in phase `done`, and leaves no
request running, provided every snapshot entry is a distinct, registered,
running (started) request and every running request is in the snapshot. -/
theorem drain_fold_spec (L : List TaskID) :
    ∀ (s : Sys), s.registry = L → L.Nodup →
    (s.reqs.map fun r => r.task.task_id).Nodup →
    (∀ t ∈ L, ∃ r rc rm, findReq s.reqs t = some r ∧ r.phase = Phase.eBody ∧
        rpGet r.task.required_resources "cpu" = Except.ok rc ∧
        rpGet r.task.required_resources "mem_gb" = Except.ok rm) →
    (∀ r ∈ s.reqs, r.phase = Phase.eBody → r.task.task_id ∈ L) →
    (∀ r ∈ s.reqs, r.phase ≠ Phase.eIncr) →
    (L.foldl drainStep s).registry = [] ∧
    (∀ t ∈ L, ∃ r', findReq (L.foldl drainStep s).reqs t = some r' ∧
        r'.phase = Phase.done) ∧
    (∀ r' ∈ (L.foldl drainStep s).reqs,
        r'.phase ≠ Phase.eBody ∧ r'.phase ≠ Phase.eIncr) := by
  induction L with
  | nil =>
      intro s hreg _ _ _ hrun hincr
      refine ⟨hreg, by simp, ?_⟩
      intro r' hr'
      exact ⟨fun hb => absurd (hrun r' hr' hb) (List.not_mem_nil _),
        hincr r' hr'⟩
  | cons t rest ih =>
      intro s hreg hnodup hids hin hrun hincr
      obtain ⟨r, rc, rm, hfind, hp, hc, hm⟩ := hin t (List.mem_cons_self t rest)
      have hstep := drainStep_eBody s t r rc rm hfind hp hc hm
      rw [List.foldl_cons, hstep]
      set s1 : Sys :=
        { s with
          load := { cpu := s.load.cpu - rc, mem_gb := s.load.mem_gb - rm }
          registry := s.registry.erase t
          reqs := setPhase s.reqs t Phase.done
          reports := s.reports } with hs1
      have hnodup' := (List.nodup_cons.mp hnodup)
      have hreg1 : s1.registry = rest := by
        rw [hs1]
        simp only [hreg]
        exact List.erase_cons_head t rest
      have hids1 : (s1.reqs.map fun r => r.task.task_id).Nodup := by
        rw [hs1]
        simp only [setPhase_ids]
        exact hids
      have hin1 : ∀ u ∈ rest, ∃ r' rc' rm',
          findReq s1.reqs u = some r' ∧ r'.phase = Phase.eBody ∧
          rpGet r'.task.required_resources "cpu" = Except.ok rc' ∧
          rpGet r'.task.required_resources "mem_gb" = Except.ok rm' := by
        intro u hu
        have hne : u ≠ t := fun hEq => hnodup'.1 (hEq ▸ hu)
        obtain ⟨r', rc', rm', hf', hp', hc', hm'⟩ :=
          hin u (List.mem_cons_of_mem t hu)
        exact ⟨r', rc', rm',
          by rw [hs1]; rw [findReq_setPhase_ne s.reqs t u Phase.done hne]; exact hf',
          hp', hc', hm'⟩
      have hrun1 : ∀ r' ∈ s1.reqs, r'.phase = Phase.eBody →
          r'.task.task_id ∈ rest := by
        intro r' hr' hb
        rcases mem_setPhase_cases s.reqs t Phase.done hids r' hr' with h1 | h1
        · rw [h1.2] at hb
          exact absurd hb (by simp)
        · have := hrun r' h1.2 hb
          rcases List.mem_cons.mp this with h2 | h2
          · exact absurd h2 h1.1
          · exact h2
      have hincr1 : ∀ r' ∈ s1.reqs, r'.phase ≠ Phase.eIncr := by
        intro r' hr'
        rcases mem_setPhase_cases s.reqs t Phase.done hids r' hr' with h1 | h1
        · rw [h1.2]
          simp
        · exact hincr r' h1.2
      obtain ⟨hempty, hdone, hnone⟩ :=
        ih s1 hreg1 hnodup'.2 hids1 hin1 hrun1 hincr1
      refine ⟨hempty, ?_, hnone⟩
      intro u hu
      rcases List.mem_cons.mp hu with h1 | h1
      · refine ⟨{ r with phase := Phase.done }, ?_, rfl⟩
        rw [h1]
        rw [findReq_drain_fold_ne rest s1 t hnodup'.1]
        rw [hs1]
        exact findReq_setPhase_self s.reqs t Phase.done r hfind
      · exact hdone u h1

/-- **C6, amended.** `shutdown()` cancels every registered handle; when
every registry entry is a distinct, *started*, running execution (phase
`eBody` — past the load-increment region) and every running execution is
registered, the gather returns only after every one of them has reached the
terminal phase `done`, the Task Registry is empty, and no execution is
still running or mutating shared state.  The started-ness restriction is
forced by `shutdown_misses_unstarted_task` below: a registered execution
cancelled before its first step never runs its `finally`, and its registry
entry survives. -/
theorem shutdown_drains_all (s : Sys)
    (hnodup : s.registry.Nodup)
    (hids : (s.reqs.map fun r => r.task.task_id).Nodup)
    (hin : ∀ t ∈ s.registry, ∃ r rc rm,
        findReq s.reqs t = some r ∧ r.phase = Phase.eBody ∧
        rpGet r.task.required_resources "cpu" = Except.ok rc ∧
        rpGet r.task.required_resources "mem_gb" = Except.ok rm)
    (hrun : ∀ r ∈ s.reqs, r.phase = Phase.eBody → r.task.task_id ∈ s.registry)
    (hincr : ∀ r ∈ s.reqs, r.phase ≠ Phase.eIncr) :
    (shutdown s).registry = [] ∧
    (∀ t ∈ s.registry, ∃ r', findReq (shutdown s).reqs t = some r' ∧
        r'.phase = Phase.done) ∧
    (∀ r' ∈ (shutdown s).reqs,
        r'.phase ≠ Phase.eBody ∧ r'.phase ≠ Phase.eIncr) :=
  drain_fold_spec s.registry s rfl hnodup hids hin hrun hincr

/-- A worker with two started executions in flight, about to shut down. -/
def sC6 : Sys :=
  { cfg := defaultWorkerConfig
    load := { cpu := 1, mem_gb := 2 }
    registry := ["a", "b"]
    semAvail := 5
    reqs :=
      [ { task := { task_id := "a"
                    required_resources := [("cpu", 1/2), ("mem_gb", 1)] }
          phase := Phase.eBody }
      , { task := { task_id := "b"
                    required_resources := [("cpu", 1/2), ("mem_gb", 1)] }
          phase := Phase.eBody } ]
    reports := []
    responses := [] }

/-- Witness for `shutdown_drains_all`: shutting down with two in-flight
tasks empties the registry, drives both to `done`, and leaves nothing
running. -/
theorem shutdown_drains_all_witness :
    (shutdown sC6).registry = [] ∧
    (∀ t ∈ sC6.registry, ∃ r', findReq (shutdown sC6).reqs t = some r' ∧
        r'.phase = Phase.done) ∧
    (∀ r' ∈ (shutdown sC6).reqs,
        r'.phase ≠ Phase.eBody ∧ r'.phase ≠ Phase.eIncr) := by
  apply shutdown_drains_all sC6
  · simp [sC6]
  · simp [sC6]
  · intro t ht
    fin_cases ht
    · exact ⟨_, 1/2, 1, rfl, rfl, rfl, rfl⟩
    · exact ⟨_, 1/2, 1, rfl, rfl, rfl, rfl⟩
  · intro r hr _
    fin_cases hr <;> simp [sC6]
  · intro r hr
    fin_cases hr <;> simp

/-- A fresh worker with one pending request for `{"cpu": 1, "mem_gb": 1}`. -/
def initC6ce : Sys :=
  { cfg := defaultWorkerConfig
    load := { cpu := 0, mem_gb := 0 }
    registry := []
    semAvail := 5
    reqs :=
      [ { task := { task_id := "a"
                    required_resources := [("cpu", 1), ("mem_gb", 1)] }
          phase := Phase.hCheck } ]
    reports := []
    responses := [] }

/-- Helper: a fresh worker under the default limits admits
`{"cpu": 1, "mem_gb": 1}`. -/
theorem check_ok_c6 :
    check_resources defaultWorkerConfig.resource_limits
      { cpu := 0, mem_gb := 0 } [("cpu", 1), ("mem_gb", 1)] =
    Except.ok true := by
  unfold check_resources defaultWorkerConfig
  rw [show rpGet [("cpu", (1:ℚ)), ("mem_gb", 1)] "cpu" = Except.ok 1 from rfl]
  rw [show rpGet [("cpu", (2:ℚ)), ("mem_gb", 8)] "cpu" = Except.ok 2 from rfl]
  rw [show rpGet [("cpu", (1:ℚ)), ("mem_gb", 1)] "mem_gb" = Except.ok 1 from rfl]
  rw [show rpGet [("cpu", (2:ℚ)), ("mem_gb", 8)] "mem_gb" = Except.ok 8 from rfl]
  norm_num

/-- **C6, counterexample.** The claim promises that `shutdown()` returns
only after the Task Registry is empty.  It is false in the reachable window
between admission and the spawned coroutine's first step: after
`[check "a", spawn "a"]` the handler has already answered
`{"status": "queued"}` and registered the handle, but the execution is at
phase `eIncr`.  `task.cancel()` on that never-started coroutine throws
`CancelledError` before the body's `try` is entered, so the `finally`
clause — and with it `self._task_registry.pop` — never runs: `shutdown`
returns with the registry still `["a"]`. -/
theorem shutdown_misses_unstarted_task :
    (run initC6ce [Ev.check "a", Ev.spawn "a"]).responses =
      [AdmissionResponse.queued "a"] ∧
    (run initC6ce [Ev.check "a", Ev.spawn "a"]).registry = ["a"] ∧
    (shutdown (run initC6ce [Ev.check "a", Ev.spawn "a"])).registry = ["a"] ∧
    (shutdown (run initC6ce [Ev.check "a", Ev.spawn "a"])).registry ≠ [] := by
  have hrun : run initC6ce [Ev.check "a", Ev.spawn "a"] =
      { cfg := defaultWorkerConfig
        load := { cpu := 0, mem_gb := 0 }
        registry := ["a"]
        semAvail := 5
        reqs :=
          [ { task := { task_id := "a"
                        required_resources := [("cpu", 1), ("mem_gb", 1)] }
              phase := Phase.eIncr } ]
        reports := []
        responses := [AdmissionResponse.queued "a"] } := by
    simp [run, initC6ce, step, findReq, setPhase, check_ok_c6]
  have hshut :
      (shutdown (run initC6ce [Ev.check "a", Ev.spawn "a"])).registry = ["a"] := by
    rw [hrun]
    simp [shutdown, drainStep, step, findReq]
  exact ⟨by rw [hrun], by rw [hrun], hshut, by rw [hshut]; simp⟩

end Sazmir
